import Mathlib

/-!
Verification development for the bell HTTPClient
(src/components/spotify/cspot/bell/src/HTTPClient.cpp).

The C++ code is shallowly embedded: byte buffers are modelled as
List Char (the C NUL terminator semantics of strstr / strchr /
strncpy / std::string are modelled explicitly), the transport socket
is a list of successive read() results plus a write-acceptance
function and a poll value, and the mutable HTTPResponse object is a
record threaded through the operations.  size_t wrap-around is
modelled with explicit arithmetic modulo 2^64 exactly where the C
code can underflow.  A ghost trace of transport events (open, write,
socket read, close) and a ghost list of processed header lines are
carried in the record; they are write-only and do not influence the
modelled control flow.
-/

set_option maxRecDepth 100000

namespace HC

/-- The C NUL character. -/
def NUL : Char := Char.ofNat 0

/-- Modelled from the spec: the fixed receive-buffer capacity BUF_SIZE
(declared in HTTPClient.h, which is not under src/; the spec only says
the buffer is one fixed-size allocation). -/
def BUF_SIZE : Nat := 1024

/-- 2^64, the modulus of the C size_t arithmetic. -/
def W64 : Nat := 2 ^ 64

/-- size_t subtraction with wrap-around (used where the C code can
underflow an unsigned subtraction). -/
def sub64 (a b : Nat) : Nat := (a + (W64 - b % W64)) % W64

/-- C strchr on a NUL-terminated buffer: index of the first occurrence
of c, scanning stops at the first NUL. -/
def cstrchr : List Char → Char → Option Nat
  | [], _ => none
  | a :: rest, c =>
    if a = NUL then none
    else if a = c then some 0
    else (cstrchr rest c).map (· + 1)

/-- The C-string view of a byte list: everything before the first NUL
(what std::string(charPtr) and the str* functions see). -/
def cstrOf (l : List Char) : List Char := l.takeWhile (fun c => c ≠ NUL)

/-- C isspace, as used by strtol for leading-whitespace skipping. -/
def isSpaceCh (c : Char) : Bool := c = ' ' || c = '\t' || c = '\n' || c = '\r'

/-- ASCII decimal digit test. -/
def isDigitCh (c : Char) : Bool := '0' ≤ c && c ≤ '9'

/-- Value of an ASCII decimal digit. -/
def digitVal (c : Char) : Nat := c.toNat - '0'.toNat

/-- ASCII hexadecimal digit test. -/
def isHexCh (c : Char) : Bool :=
  isDigitCh c || ('a' ≤ c && c ≤ 'f') || ('A' ≤ c && c ≤ 'F')

/-- Value of an ASCII hexadecimal digit. -/
def hexDigitVal (c : Char) : Nat :=
  if isDigitCh c then digitVal c
  else if 'a' ≤ c && c ≤ 'f' then c.toNat - 'a'.toNat + 10
  else c.toNat - 'A'.toNat + 10

/-- strtol(p, _, 10) on the values this client feeds it (no sign):
skip spaces, read a run of decimal digits, ignore the rest. -/
def strtolDec (l : List Char) : Nat :=
  ((l.dropWhile isSpaceCh).takeWhile isDigitCh).foldl (fun a c => a * 10 + digitVal c) 0

/-- strtol(p, &endPtr, 16) value (also std::stoul base 16): skip
spaces, read a run of hex digits. -/
def strtolHexVal (l : List Char) : Nat :=
  ((l.dropWhile isSpaceCh).takeWhile isHexCh).foldl (fun a c => a * 16 + hexDigitVal c) 0

/-- Number of characters strtol(p, &endPtr, 16) consumes (endPtr - p). -/
def strtolHexLen (l : List Char) : Nat :=
  (l.takeWhile isSpaceCh).length + ((l.dropWhile isSpaceCh).takeWhile isHexCh).length

/-- ASCII tolower. -/
def toLowerCh (c : Char) : Char :=
  if 'A' ≤ c && c ≤ 'Z' then Char.ofNat (c.toNat + 32) else c

/-- The count bytes that strncpy(dst, src, count) writes: source bytes
up to the first NUL, then NUL padding up to count. -/
def strncpyList (src : List Char) (count : Nat) : List Char :=
  let cp := (src.takeWhile (fun c => c ≠ NUL)).take count
  cp ++ List.replicate (count - cp.length) NUL

/-- Write a run of bytes into a byte-addressed destination at a given
offset; all other addresses keep their previous content. -/
def writeBytes (dst : Nat → Char) (off : Nat) (bs : List Char) : Nat → Char :=
  fun i => if off ≤ i ∧ i < off + bs.length then bs.getD (i - off) NUL else dst i

/-- The C-string read of a byte-addressed buffer starting at address 0
(what std::string(buffer) sees), scanning at most bound addresses. -/
def cstrOfFun (f : Nat → Char) (bound : Nat) : List Char :=
  ((List.range bound).map f).takeWhile (fun c => c ≠ NUL)

/-- Ghost transport events. -/
inductive Ev where
  | opened (host : List Char) (port : Nat) (tls : Bool)
  | wrote (accepted requested : Nat)
  | sockRead (n : Nat)
  | closed
deriving DecidableEq

/-- The transport, at its interface: the successive byte runs that
socket->read will yield, the byte count socket->write accepts for a
request of a given length, and the poll() value. -/
structure ModelSocket where
  writeAccept : Nat → Nat
  fills : List (List Char)
  pollVal : Nat

/-- A closed dummy socket. -/
def emptySocket : ModelSocket := ⟨fun _ => 0, [], 0⟩

/-- The HTTPClient::HTTPResponse object.  Field defaults are the
initial state of a fresh response (the field declarations live in
HTTPClient.h, not under src/; modelled from the spec data model:
counters 0, flags false, strings empty).  plines and tr are ghost
fields (processed header lines, transport event trace). -/
structure Resp where
  statusCode : Nat := 0
  contentLength : Nat := 0
  contentType : List Char := []
  location : List Char := []
  isChunked : Bool := false
  isGzip : Bool := false
  isComplete : Bool := false
  isRedirect : Bool := false
  isStreaming : Bool := false
  redirectCount : Nat := 0
  headers : List (List Char × List Char) := []
  bufAllocated : Bool := false
  buf : List Char := []
  bufPos : Nat := 0
  bufRemaining : Nat := 0
  bodyRead : Nat := 0
  chunkRemaining : Nat := 0
  socket : ModelSocket := emptySocket
  plines : List (List Char) := []
  tr : List Ev := []

/-- A fresh HTTPResponse, as allocated by HTTPClient::execute. -/
def initResp : Resp := {}

/-- Modelled from the spec: HTTPResponse::close (its body is not under
src/; the spec says it releases the transport and is idempotent).  We
record a close event on the ghost trace. -/
def closeResp (s : Resp) : Resp := { s with tr := s.tr ++ [Ev.closed] }

/-- HTTPResponse::readRaw: one socket->read into the buffer (at most
BUF_SIZE bytes), bodyRead accumulation, and the dst[len] = NUL
terminator (implicit: buf holds exactly the bytes read). -/
def readRaw (s : Resp) : Resp × Nat :=
  match s.socket.fills with
  | [] => ({ s with buf := [], tr := s.tr ++ [Ev.sockRead 0] }, 0)
  | f :: rest =>
    let fl := f.take BUF_SIZE
    ({ s with socket := { s.socket with fills := rest }, buf := fl,
              bodyRead := s.bodyRead + fl.length,
              tr := s.tr ++ [Ev.sockRead fl.length] }, fl.length)

/-- std::map-backed header storage: replace the value if the key is
present, otherwise add the binding. -/
def insertHeader : List (List Char × List Char) → List Char → List Char → List (List Char × List Char)
  | [], k, v => [(k, v)]
  | (k0, v0) :: rest, k, v =>
    if k0 = k then (k0, v) :: rest else (k0, v0) :: insertHeader rest k v

/-- HTTPClient::readHeader: case-insensitive prefix match of a header
name; on success yields the value with leading spaces skipped. -/
def readHeader (h : List Char) (name : List Char) : Option (List Char) :=
  if (h.take name.length).map toLowerCh = name.map toLowerCh then
    some ((h.drop name.length).dropWhile (fun c => c = ' '))
  else none

/-- One header line of HTTPResponse::readHeaders (lines 138-164 of
HTTPClient.cpp): status line, the four dedicated headers, or a generic
name: value pair.  The line is first viewed as a C string (lineBuf is
accessed through c_str()).  Also appends the line to the ghost
plines list. -/
def processHeaderLine (s0 : Resp) (lineBuf : List Char) : Resp :=
  let s := { s0 with plines := s0.plines ++ [lineBuf] }
  let h := cstrOf lineBuf
  if "HTTP/".toList.isPrefixOf h then
    { s with statusCode := strtolDec (h.drop 9) }
  else match readHeader h "content-type:".toList with
  | some v => { s with contentType := v }
  | none => match readHeader h "content-length:".toList with
    | some v =>
      let n := strtolDec v
      { s with contentLength := n, isComplete := if n = 0 then true else s.isComplete }
    | none => match readHeader h "transfer-encoding:".toList with
      | some v => { s with isChunked := "chunked".toList.isPrefixOf v }
      | none => match readHeader h "location:".toList with
        | some v => { s with isRedirect := true, location := v }
        | none => match cstrchr h ':' with
          | some ci =>
            { s with headers := insertHeader s.headers ((h.take ci).map toLowerCh)
                       ((h.drop (ci + 1)).dropWhile (fun c => c = ' ')) }
          | none => s

/-- Result of scanning one buffer fill for CRLF-terminated lines. -/
inductive ScanRes where
  | complete (lineEndIdx : Nat)
  | more (lineBuf : List Char)

/-- The inner loop of readHeaders over one fill (lines 118-168):
strstr-based scan for "\r\n" (stopping at a NUL like strstr), each
completed line processed, an empty line terminating with the index of
its CR, and a trailing fragment (everything from the line start to the
end of the fill) accumulated into lineBuf. -/
def scanFill (s : Resp) (lineBuf acc : List Char) (pos : Nat) : List Char → Resp × ScanRes
  | [] => (s, ScanRes.more (lineBuf ++ acc))
  | [c] => (s, ScanRes.more (lineBuf ++ acc ++ [c]))
  | c :: d :: rest2 =>
    if c = NUL then (s, ScanRes.more (lineBuf ++ acc ++ c :: d :: rest2))
    else if c = '\r' ∧ d = '\n' then
      if lineBuf ++ acc = [] then (s, ScanRes.complete pos)
      else scanFill (processHeaderLine s (lineBuf ++ acc)) [] [] (pos + 2) rest2
    else scanFill s lineBuf (acc ++ [c]) (pos + 1) (d :: rest2)

/-- The outer do-while of readHeaders (lines 115-169): one readRaw per
iteration, scan of the fill, and on the blank-line terminator the
body-cursor setup and the streaming heuristic (lines 126-134).  An
exhausted transport makes the C loop spin forever; that is returned as
the flag false. -/
def readHeadersLoop : List (List Char) → Resp → List Char → Resp × Bool
  | [], s, _ => (s, false)
  | f :: rest, s, lineBuf =>
    let fl := f.take BUF_SIZE
    let len := fl.length
    let s1 : Resp := { s with socket := { s.socket with fills := rest }, buf := fl,
                              bodyRead := s.bodyRead + len,
                              tr := s.tr ++ [Ev.sockRead len] }
    match scanFill s1 lineBuf [] 0 fl with
    | (s2, ScanRes.more lb) => readHeadersLoop rest s2 lb
    | (s2, ScanRes.complete idx) =>
      if idx + 2 < len then
        ({ s2 with bufPos := idx + 2,
                   bufRemaining := len - (idx + 2),
                   bodyRead := len - (idx + 2),
                   isStreaming := !s2.isComplete && decide (s2.contentLength = 0) &&
                     (decide (len < BUF_SIZE) || decide (s2.socket.pollVal = 0)) }, true)
      else (s2, true)

/-- HTTPResponse::readHeaders (lines 96-170): buffer allocation on
first use, the per-leg metadata reset, then the fill loop. -/
def readHeaders (s0 : Resp) : Resp × Bool :=
  let sa := if s0.bufAllocated then s0 else { s0 with bufAllocated := true, bufPos := 0 }
  let s := { sa with statusCode := 0, contentLength := 0, isChunked := false,
                     isGzip := false, isComplete := false, isRedirect := false,
                     isStreaming := false, plines := [] }
  readHeadersLoop s.socket.fills s []

/-- HTTPResponse::skip (lines 172-196): consume len buffered bytes,
carrying any excess over a refill; the unsigned subtraction
bufRemaining -= skip after a refill is modelled with size_t
wrap-around (sub64), exactly as the C code computes it. -/
def skip (s0 : Resp) (len0 : Nat) (dontRead : Bool) : Resp × Bool :=
  let sk := if len0 > s0.bufRemaining then len0 - s0.bufRemaining else 0
  let len := if len0 > s0.bufRemaining then s0.bufRemaining else len0
  let s := { s0 with bufRemaining := s0.bufRemaining - len, bufPos := s0.bufPos + len }
  if s.bufRemaining = 0 ∧ dontRead = false then
    if s.isComplete = true ∨ (s.contentLength ≠ 0 ∧ s.bodyRead ≥ s.contentLength ∧ s.chunkRemaining = 0) then
      ({ s with isComplete := true }, false)
    else
      let p := readRaw s
      let s1 : Resp := { p.1 with bufRemaining := p.2 }
      if s1.bufRemaining = 0 then (s1, false)
      else
        let s2 : Resp := { s1 with bufPos := sk, bufRemaining := sub64 s1.bufRemaining sk }
        let s3 : Resp := if s2.contentLength = 0 ∧ s2.bufRemaining < BUF_SIZE
                         then { s2 with isStreaming := true } else s2
        (s3, true)
  else (s, true)

/-- The inner copy loop of HTTPResponse::read (lines 232-245): per
iteration copy min(toRead, bufRemaining, chunkRemaining) bytes with
strncpy, advance all counters, eat the copied bytes (skip), and for
chunked mode skip the chunk-trailing CRLF (without forcing a refill
while streaming).  Returns (state, destination, bytes written so far,
remaining request).  Fuel models the C loop (none = out of fuel). -/
def copyInner : Nat → Resp → (Nat → Char) → Nat → Nat → Option (Resp × (Nat → Char) × Nat × Nat)
  | 0, _, _, _, _ => none
  | Nat.succ fuel, s, dst, acc, toRead =>
    if s.chunkRemaining ≠ 0 ∧ toRead ≠ 0 then
      let count := min toRead (min s.bufRemaining s.chunkRemaining)
      let dst1 := writeBytes dst acc (strncpyList (s.buf.drop s.bufPos) count)
      let s1 : Resp := { s with chunkRemaining := s.chunkRemaining - count }
      match skip s1 count false with
      | (s2, false) => some (s2, dst1, acc + count, 0)
      | (s2, true) =>
        if s2.isChunked = true ∧ s2.chunkRemaining = 0 then
          match skip s2 2 s2.isStreaming with
          | (s3, false) => some (s3, dst1, acc + count, 0)
          | (s3, true) => some (s3, dst1, acc + count, toRead - count)
        else copyInner fuel s2 dst1 (acc + count) (toRead - count)
    else some (s, dst, acc, toRead)

/-- The chunk-size-line handling of HTTPResponse::read (lines 208-230),
including the case of a size line straddling a refill, plus the
content-length seeding of chunkRemaining.  Returns the updated state
and false when the C code breaks out of the outer read loop. -/
def chunkHeaderStep (s : Resp) : Resp × Bool :=
  if s.isChunked = true ∧ s.chunkRemaining = 0 then
    if s.buf.getD s.bufPos NUL = '0' then ({ s with isComplete := true }, false)
    else
      match cstrchr (s.buf.drop s.bufPos) '\r' with
      | none =>
        let sizeAcc := (s.buf.drop s.bufPos).take s.bufRemaining
        match skip s s.bufRemaining false with
        | (s1, false) => (s1, false)
        | (s1, true) =>
          match cstrchr (s1.buf.drop s1.bufPos) '\r' with
          | none => (s1, false)
          | some e =>
            let s2 : Resp := { s1 with
              chunkRemaining := strtolHexVal (sizeAcc ++ (s1.buf.drop s1.bufPos).take e) }
            match skip s2 (e + 2) false with
            | (s3, false) => (s3, false)
            | (s3, true) => (s3, true)
      | some _ =>
        let e := strtolHexLen (s.buf.drop s.bufPos)
        let s1 : Resp := { s with chunkRemaining := strtolHexVal (s.buf.drop s.bufPos) }
        match skip s1 (e + 2) false with
        | (s2, false) => (s2, false)
        | (s2, true) => (s2, true)
  else
    (if s.contentLength ≠ 0 ∧ s.chunkRemaining = 0
     then { s with chunkRemaining := s.contentLength } else s, true)

/-- The outer while loop of HTTPResponse::read (lines 206-249):
skip(0) to ensure buffered data, the chunk-header step, the inner copy
loop, and the streaming early-exit when the buffer is empty. -/
def readLoop : Nat → Resp → (Nat → Char) → Nat → Nat → Option (Resp × (Nat → Char) × Nat)
  | 0, _, _, _, _ => none
  | Nat.succ fuel, s, dst, acc, toRead =>
    if toRead = 0 then some (s, dst, acc)
    else
      let s1 := (skip s 0 false).1
      match chunkHeaderStep s1 with
      | (s2, false) => some (s2, dst, acc)
      | (s2, true) =>
        match copyInner (toRead + s2.socket.fills.length + 2) s2 dst acc toRead with
        | none => none
        | some (s3, dst3, acc3, toRead3) =>
          if s3.isStreaming = true ∧ s3.bufRemaining = 0 then some (s3, dst3, acc3)
          else readLoop fuel s3 dst3 acc3 toRead3

/-- HTTPResponse::read (lines 198-255): immediate 0 with a NUL at
dst[0] when complete, else the decode loop, the content-length
completion check, and the dst[read] = NUL terminator.  Returns the
final state, destination contents and byte count (none = the C loop
diverged, i.e. never returned). -/
def read (fuel : Nat) (s : Resp) (dst : Nat → Char) (toRead : Nat) :
    Option (Resp × (Nat → Char) × Nat) :=
  if s.isComplete = true then some (s, writeBytes dst 0 [NUL], 0)
  else
    match readLoop fuel s dst 0 toRead with
    | none => none
    | some (s1, dst1, acc) =>
      let s2 : Resp := if s1.isChunked = false ∧ s1.contentLength ≠ 0 ∧ s1.chunkRemaining = 0
                       then { s1 with isComplete := true } else s1
      some (s2, writeBytes dst1 acc [NUL], acc)

/-- The do-while of readToString for unknown content length (lines
267-270): read into the reused scratch buffer, append its C-string
view, stop after a zero-length read, then close. -/
def readToStringLoop : Nat → Nat → Resp → (Nat → Char) → List Char → Option (Resp × List Char)
  | 0, _, _, _, _ => none
  | Nat.succ fuel, rdFuel, s, scratch, acc =>
    match read rdFuel s scratch BUF_SIZE with
    | none => none
    | some (s1, scratch1, n) =>
      let acc1 := acc ++ cstrOfFun scratch1 (BUF_SIZE + 1)
      if n = 0 then some (closeResp s1, acc1)
      else readToStringLoop fuel rdFuel s1 scratch1 acc1

/-- HTTPResponse::readToString (lines 257-273): with a known content
length one bounded read into a string of exactly that length, else the
scratch-buffer loop; the transport is closed either way. -/
def readToString (fuel : Nat) (s : Resp) : Option (Resp × List Char) :=
  if s.contentLength ≠ 0 then
    match read fuel s (fun _ => NUL) s.contentLength with
    | none => none
    | some (s1, dst, _) => some (closeResp s1, (List.range s.contentLength).map dst)
  else readToStringLoop fuel fuel s (fun _ => NUL) []

/-- Request method. -/
inductive HTTPMethod where
  | GET
  | POST

/-- Modelled from the spec: the HTTPRequest value (declared in
HTTPClient.h, not under src/): method, absolute URL, header mapping,
optional body, content type, and the signed maximum redirect count. -/
structure HTTPRequest where
  method : HTTPMethod
  url : List Char
  headers : List (List Char × List Char)
  body : List Char
  contentType : List Char
  maxRedirects : Int

/-- The URL decomposition of executeImpl (lines 16-26): scheme from the
fifth character, hostname after the scheme prefix, strchr for the
first colon (a port separator wherever it occurs) and the first slash;
with no colon the hostname ends at the slash.  A URL with neither
colon nor slash after the scheme dereferences a null pointer in the C
code (spec: precondition violation), returned here as none; the port
is truncated to uint16_t. -/
def splitUrl (url : List Char) : Option (Bool × List Char × Nat × List Char) :=
  let https := url.getD 4 NUL == 's'
  let hostname := url.drop (if https then 8 else 7)
  match cstrchr hostname ':', cstrchr hostname '/' with
  | none, none => none
  | none, some p => some (https, hostname.take p, if https then 443 else 80, hostname.drop p)
  | some ci, sl =>
    let port := strtolDec (hostname.drop (ci + 1)) % 65536
    match sl with
    | none => none
    | some p => some (https, hostname.take ci, port, hostname.drop p)

/-- Decimal rendering of a number, as operator<< produces it. -/
def natDecRepr (n : Nat) : List Char := (Nat.repr n).toList

/-- CRLF. -/
def crlf : List Char := ['\r', '\n']

/-- The request serialization of executeImpl (lines 35-57): request
line, Host with explicit port, Accept, conditional Content-Type and
Content-Length when a body is present, the caller headers, a blank
line, then the body.  (The C header container is a std::map; the spec
says its order is irrelevant; we emit the list in order.) -/
def serializeRequest (req : HTTPRequest) (host : List Char) (port : Nat) (path : List Char) : List Char :=
  (match req.method with
   | HTTPMethod.GET => "GET ".toList
   | HTTPMethod.POST => "POST ".toList)
  ++ path ++ " HTTP/1.1".toList ++ crlf
  ++ "Host: ".toList ++ host ++ [':'] ++ natDecRepr port ++ crlf
  ++ "Accept: */*".toList ++ crlf
  ++ (if req.body = [] then []
      else "Content-Type: ".toList ++ req.contentType ++ crlf
        ++ "Content-Length: ".toList ++ natDecRepr req.body.length ++ crlf)
  ++ req.headers.foldr (fun kv r => kv.1 ++ ": ".toList ++ kv.2 ++ crlf ++ r) []
  ++ crlf ++ req.body

/-- Result of one executeImpl call. -/
inductive ExecOut where
  | ok (s : Resp)
  | nullResp (tr : List Ev)
  | diverge (tr : List Ev)
  | badUrl

/-- One leg of executeImpl (lines 16-68): URL split, socket open,
request serialization and write (a short write closes the socket and
frees the response, yielding nullResp with the trace), then
readHeaders (divergence of its loop reported as diverge). -/
def runLeg (world : List Char → Nat → ModelSocket) (req : HTTPRequest)
    (url : List Char) (s : Resp) : ExecOut :=
  match splitUrl url with
  | none => ExecOut.badUrl
  | some (https, host, port, path) =>
    let sock := world host port
    let s1 : Resp := { s with socket := sock, tr := s.tr ++ [Ev.opened host port https] }
    let data := serializeRequest req host port path
    let acc := sock.writeAccept data.length
    let s2 : Resp := { s1 with tr := s1.tr ++ [Ev.wrote acc data.length] }
    if acc = data.length then
      match readHeaders s2 with
      | (s3, true) => ExecOut.ok s3
      | (s3, false) => ExecOut.diverge s3.tr
    else ExecOut.nullResp (closeResp s2).tr

/-- HTTPClient::executeImpl (lines 15-75): one leg, then the redirect
check of line 70 (Location seen, and maxRedirects negative or
redirectCount below it): increment redirectCount, close the previous
transport, and re-invoke on the location URL.  Fuel bounds the
unbounded C recursion. -/
def executeImpl : Nat → (List Char → Nat → ModelSocket) → HTTPRequest → List Char → Resp → ExecOut
  | 0, _, _, _, s => ExecOut.diverge s.tr
  | Nat.succ fuel, world, req, url, s =>
    match runLeg world req url s with
    | ExecOut.ok s1 =>
      if s1.isRedirect = true ∧ (req.maxRedirects < 0 ∨ (s1.redirectCount : Int) < req.maxRedirects) then
        executeImpl fuel world req s1.location
          (closeResp { s1 with redirectCount := s1.redirectCount + 1 })
      else ExecOut.ok s1
    | out => out

/-- HTTPClient::execute (lines 8-13): fresh response, then executeImpl
on the request URL. -/
def execute (fuel : Nat) (world : List Char → Nat → ModelSocket) (req : HTTPRequest) : ExecOut :=
  executeImpl fuel world req req.url initResp

/-- The parsed response metadata (the caller-visible result of header
parsing): status code, content length, content type, location, chunked
flag, and the generic header map. -/
structure HdrMeta where
  statusCode : Nat
  contentLength : Nat
  contentType : List Char
  location : List Char
  isChunked : Bool
  headers : List (List Char × List Char)
deriving DecidableEq

/-- Metadata of a readHeaders result; none when the header parse never
terminated. -/
def respMeta (p : Resp × Bool) : Option HdrMeta :=
  if p.2 then
    some ⟨p.1.statusCode, p.1.contentLength, p.1.contentType, p.1.location,
          p.1.isChunked, p.1.headers⟩
  else none

/-- A response whose transport will deliver the given fills, with a
fully accepting write side and poll() = 0. -/
def mkS (fs : List (List Char)) : Resp :=
  { initResp with socket := { writeAccept := fun n => n, fills := fs, pollVal := 0 } }

/-- Header block of a chunked 200 response. -/
def chunkedHdrs : List Char := "HTTP/1.1 200 OK\r\nTransfer-Encoding: chunked\r\n\r\n".toList

/-- The Wikipedia chunked body from the spec. -/
def wikiBody : List Char := "4\r\nWiki\r\n5\r\npedia\r\n0\r\n\r\n".toList

/-- Response state after header parse for the Wikipedia chunked
scenario (headers and body delivered in one transport read). -/
def c1s1 : Resp := (readHeaders (mkS [chunkedHdrs ++ wikiBody])).1

/-- Header block declaring Content-Length: 3. -/
def cl3Hdrs : List Char := "HTTP/1.1 200 OK\r\nContent-Length: 3\r\n\r\n".toList

/-- Response state after header parse for a 3-byte body containing an
interior NUL: bytes A, NUL, B. -/
def c3s1 : Resp := (readHeaders (mkS [cl3Hdrs ++ ['A', NUL, 'B']])).1

/-- The header block of the split-invariance experiment (the spec's
own example header Content-Length: 42); length 39. -/
def b4 : List Char := "HTTP/1.1 200 OK\r\nContent-Length: 42\r\n\r\n".toList

/-- A header block with no content-length and no transfer-encoding. -/
def b5 : List Char := "HTTP/1.1 200 OK\r\n\r\n".toList

/-- A header block whose content-length value is 0. -/
def b5z : List Char := "HTTP/1.1 200 OK\r\ncontent-length: 0\r\n\r\n".toList

/-- Chunked streaming response whose 10-byte chunk (size line a) is
split mid-chunk across two transport reads: the first fill carries
only HELLO, the second WORLD plus the terminal chunk. -/
def c7cexS1 : Resp :=
  (readHeaders (mkS [chunkedHdrs ++ "a\r\nHELLO".toList, "WORLD\r\n0\r\n\r\n".toList])).1

/-- Chunked streaming response whose first fill ends exactly at a
chunk boundary (5-byte chunk HELLO with its trailing CRLF), with the
terminal chunk still pending in the transport. -/
def c7okS1 : Resp :=
  (readHeaders (mkS [chunkedHdrs ++ "5\r\nHELLO\r\n".toList, "0\r\n\r\n".toList])).1

/-- Chunked response headers with an empty buffer afterwards, then a
single-byte transport fill: the state feeding the skip(2) underflow. -/
def c8s1 : Resp := (readHeaders (mkS [chunkedHdrs, ['X']])).1

/-- The state after skip(2) on c8s1 (the chunk-trailing-CRLF skip when
the buffer is empty and the transport yields one byte). -/
def c8s2 : Resp := (skip c8s1 2 false).1

/-- The header line content-length: 0. -/
def clZeroLine : List Char := "content-length: 0".toList

/-- URL of the first leg of the redirect scenario. -/
def c2url : List Char := "http://a/x".toList

/-- Transport for host a: a 302 with a Location header. -/
def sockA : ModelSocket :=
  { writeAccept := fun n => n,
    fills := ["HTTP/1.1 302 Found\r\nLocation: http://b/y\r\n\r\n".toList],
    pollVal := 0 }

/-- Transport for host b: a 200 with content-length 0. -/
def sockB : ModelSocket :=
  { writeAccept := fun n => n,
    fills := ["HTTP/1.1 200 OK\r\nContent-Length: 0\r\n\r\n".toList],
    pollVal := 0 }

/-- The two-host world of the redirect scenario. -/
def c2W : List Char → Nat → ModelSocket :=
  fun host _ => if host = "a".toList then sockA else sockB

/-- A GET request for the redirect scenario (maxRedirects overridden
per experiment). -/
def c2Req : HTTPRequest :=
  { method := HTTPMethod.GET, url := c2url, headers := [], body := [],
    contentType := [], maxRedirects := 0 }

/-- The first-leg response of the redirect scenario. -/
def c2s1 : Resp :=
  match runLeg c2W c2Req c2url initResp with
  | ExecOut.ok s => s
  | _ => initResp

/-- The response state entering the second leg: redirect counted and
previous transport closed. -/
def c2s1b : Resp := closeResp { c2s1 with redirectCount := c2s1.redirectCount + 1 }

/-- The second-leg response of the redirect scenario. -/
def c2s2 : Resp :=
  match runLeg c2W c2Req c2s1.location c2s1b with
  | ExecOut.ok s => s
  | _ => initResp

/-- A world whose transports accept no bytes on write. -/
def c9W : List Char → Nat → ModelSocket :=
  fun _ _ => { writeAccept := fun _ => 0, fills := [], pollVal := 0 }

end HC

namespace HC

/-- The result of a concrete read for the frame-property witness
(3-byte content-length body read to completion). -/
def c10res : Resp × (Nat → Char) × Nat :=
  (read 32 c3s1 (fun _ => NUL) 3).getD (initResp, (fun _ => NUL), 0)

end HC

namespace HC

/-- Every branch of processHeaderLine appends the processed line to
the ghost plines list. -/
theorem processHeaderLine_plines (s : Resp) (l : List Char) :
    (processHeaderLine s l).plines = s.plines ++ [l] := by
  simp only [processHeaderLine]
  repeat' split
  all_goals rfl

/-- processHeaderLine never resets an already-set isComplete flag. -/
theorem processHeaderLine_complete_mono (s : Resp) (l : List Char)
    (h : s.isComplete = true) : (processHeaderLine s l).isComplete = true := by
  simp only [processHeaderLine]
  repeat' split
  all_goals simp_all

/-- Processing the line content-length: 0 sets isComplete. -/
theorem processHeaderLine_clzero (s : Resp) :
    (processHeaderLine s clZeroLine).isComplete = true := rfl

/-- The key step invariant: if membership of content-length: 0 among
the processed lines implies completeness before a line is processed,
it still does afterwards. -/
theorem processHeaderLine_inv (s : Resp) (l : List Char)
    (h : clZeroLine ∈ s.plines → s.isComplete = true)
    (hm : clZeroLine ∈ (processHeaderLine s l).plines) :
    (processHeaderLine s l).isComplete = true := by
  by_cases hl : l = clZeroLine
  · subst hl
    exact processHeaderLine_clzero s
  · rw [processHeaderLine_plines] at hm
    rcases List.mem_append.mp hm with hm | hm
    · exact processHeaderLine_complete_mono s l (h hm)
    · simp only [List.mem_singleton] at hm
      exact absurd hm.symm hl

/-- The scan of one fill preserves the content-length-zero invariant
(induction on the length of the remaining fill). -/
theorem scanFill_inv : ∀ (n : Nat) (l : List Char), l.length ≤ n →
    ∀ (s : Resp) (lb acc : List Char) (pos : Nat),
    (clZeroLine ∈ s.plines → s.isComplete = true) →
    clZeroLine ∈ (scanFill s lb acc pos l).1.plines →
    (scanFill s lb acc pos l).1.isComplete = true
  | _, [], _, s, lb, acc, pos, hP => by simpa [scanFill] using hP
  | _, [c], _, s, lb, acc, pos, hP => by simpa [scanFill] using hP
  | 0, c :: d :: rest2, hl, s, lb, acc, pos, hP => by simp at hl
  | Nat.succ n, c :: d :: rest2, hl, s, lb, acc, pos, hP => by
    simp only [List.length_cons] at hl
    simp only [scanFill]
    split
    · exact hP
    · split
      · split
        · exact hP
        · exact scanFill_inv n rest2 (by omega) _ [] [] (pos + 2)
            (processHeaderLine_inv s (lb ++ acc) hP)
      · exact scanFill_inv n (d :: rest2) (by simp only [List.length_cons]; omega)
          s lb (acc ++ [c]) (pos + 1) hP

/-- The fill loop of readHeaders preserves the content-length-zero
invariant. -/
theorem readHeadersLoop_inv : ∀ (fills : List (List Char)) (s : Resp) (lb : List Char),
    (clZeroLine ∈ s.plines → s.isComplete = true) →
    clZeroLine ∈ (readHeadersLoop fills s lb).1.plines →
    (readHeadersLoop fills s lb).1.isComplete = true
  | [], s, lb, hP => hP
  | f :: rest, s, lb, hP => by
    simp only [readHeadersLoop]
    have h2 := scanFill_inv (f.take BUF_SIZE).length (f.take BUF_SIZE) le_rfl
      { s with socket := { s.socket with fills := rest }, buf := f.take BUF_SIZE,
               bodyRead := s.bodyRead + (f.take BUF_SIZE).length,
               tr := s.tr ++ [Ev.sockRead (f.take BUF_SIZE).length] } lb [] 0 hP
    split
    next s2 lb2 hscan =>
      rw [hscan] at h2
      exact readHeadersLoop_inv rest s2 lb2 h2
    next s2 idx hscan =>
      rw [hscan] at h2
      split
      · exact h2
      · exact h2

/-- After readHeaders, if content-length: 0 was among the processed
header lines the response is complete (readHeaders resets the ghost
line list, so membership means the line was processed this leg). -/
theorem readHeaders_inv (s0 : Resp) :
    clZeroLine ∈ (readHeaders s0).1.plines → (readHeaders s0).1.isComplete = true := by
  unfold readHeaders
  exact readHeadersLoop_inv _ _ _ (fun h => absurd h (List.not_mem_nil _))

/-- cstrchr finds nothing when the character is absent. -/
theorem cstrchr_eq_none (l : List Char) (c : Char) (h : c ∉ l) : cstrchr l c = none := by
  induction l with
  | nil => rfl
  | cons a rest ih =>
    simp only [List.mem_cons, not_or] at h
    rw [cstrchr]
    split
    · rfl
    · rw [if_neg (fun hac => h.1 hac.symm), ih h.2]
      rfl

/-- cstrchr over an appended prefix free of the target character and
of NUL offsets the search into the suffix. -/
theorem cstrchr_append (l m : List Char) (c : Char) (hc : c ∉ l) (hn : NUL ∉ l) :
    cstrchr (l ++ m) c = (cstrchr m c).map (· + l.length) := by
  induction l with
  | nil =>
    cases h : cstrchr m c <;> simp [h]
  | cons a rest ih =>
    simp only [List.mem_cons, not_or] at hc hn
    rw [List.cons_append, cstrchr, if_neg (fun hx => hn.1 hx.symm),
        if_neg (fun hx => hc.1 hx.symm), ih hc.2 hn.2]
    cases h : cstrchr m c with
    | none => rfl
    | some v => simp [Nat.add_assoc]

/-- processHeaderLine never touches the redirect counter. -/
theorem processHeaderLine_redirectCount (s : Resp) (l : List Char) :
    (processHeaderLine s l).redirectCount = s.redirectCount := by
  simp only [processHeaderLine]
  repeat' split
  all_goals rfl

/-- The fill scan never touches the redirect counter. -/
theorem scanFill_redirectCount : ∀ (n : Nat) (l : List Char), l.length ≤ n →
    ∀ (s : Resp) (lb acc : List Char) (pos : Nat),
    (scanFill s lb acc pos l).1.redirectCount = s.redirectCount
  | _, [], _, s, lb, acc, pos => by simp [scanFill]
  | _, [c], _, s, lb, acc, pos => by simp [scanFill]
  | 0, c :: d :: rest2, hl, s, lb, acc, pos => by simp at hl
  | Nat.succ n, c :: d :: rest2, hl, s, lb, acc, pos => by
    simp only [List.length_cons] at hl
    simp only [scanFill]
    split
    · rfl
    · split
      · split
        · rfl
        · rw [scanFill_redirectCount n rest2 (by omega) _ [] [] (pos + 2)]
          exact processHeaderLine_redirectCount s (lb ++ acc)
      · exact scanFill_redirectCount n (d :: rest2) (by simp only [List.length_cons]; omega)
          s lb (acc ++ [c]) (pos + 1)

/-- The header fill loop never touches the redirect counter. -/
theorem readHeadersLoop_redirectCount : ∀ (fills : List (List Char)) (s : Resp) (lb : List Char),
    (readHeadersLoop fills s lb).1.redirectCount = s.redirectCount
  | [], s, lb => rfl
  | f :: rest, s, lb => by
    simp only [readHeadersLoop]
    have h2 := scanFill_redirectCount (f.take BUF_SIZE).length (f.take BUF_SIZE) le_rfl
      { s with socket := { s.socket with fills := rest }, buf := f.take BUF_SIZE,
               bodyRead := s.bodyRead + (f.take BUF_SIZE).length,
               tr := s.tr ++ [Ev.sockRead (f.take BUF_SIZE).length] } lb [] 0
    split
    next s2 lb2 hscan =>
      rw [hscan] at h2
      rw [readHeadersLoop_redirectCount rest s2 lb2]
      exact h2
    next s2 idx hscan =>
      rw [hscan] at h2
      split
      · exact h2
      · exact h2

/-- readHeaders never touches the redirect counter. -/
theorem readHeaders_redirectCount (s0 : Resp) :
    (readHeaders s0).1.redirectCount = s0.redirectCount := by
  unfold readHeaders
  split
  · rw [readHeadersLoop_redirectCount]
  · rw [readHeadersLoop_redirectCount]

/-- runLeg does not inspect the maximum redirect count of the request
(only executeImpl does). -/
theorem runLeg_withMax (world : List Char → Nat → ModelSocket) (req : HTTPRequest)
    (url : List Char) (s : Resp) (m : Int) :
    runLeg world { req with maxRedirects := m } url s = runLeg world req url s := by
  cases req
  rfl

/-- A successfully parsed leg preserves the redirect counter. -/
theorem runLeg_redirectCount (world : List Char → Nat → ModelSocket) (req : HTTPRequest)
    (url : List Char) (s s' : Resp)
    (h : runLeg world req url s = ExecOut.ok s') : s'.redirectCount = s.redirectCount := by
  simp only [runLeg] at h
  split at h
  · cases h
  · split at h
    · split at h
      next s3 hrh =>
        cases h
        have h2 := congrArg (fun p => p.1.redirectCount) hrh
        simp only [readHeaders_redirectCount] at h2
        exact h2.symm
      next s3 hrh => cases h
    · cases h

/-- strncpy writes exactly count bytes. -/
theorem strncpyList_length (src : List Char) (count : Nat) :
    (strncpyList src count).length = count := by
  simp only [strncpyList, List.length_append, List.length_replicate, List.length_take]
  omega

/-- writeBytes leaves every address outside its run unchanged. -/
theorem writeBytes_outside (dst : Nat → Char) (off : Nat) (bs : List Char) (i : Nat)
    (h : i < off ∨ off + bs.length ≤ i) : writeBytes dst off bs i = dst i := by
  simp only [writeBytes]
  rw [if_neg]
  rintro ⟨h1, h2⟩
  omega

/-- Writing the single NUL terminator puts a NUL at its own address. -/
theorem writeBytes_nul (dst : Nat → Char) (off : Nat) : writeBytes dst off [NUL] off = NUL := by
  simp [writeBytes]

/-- Frame property of the inner copy loop: the destination cursor only
moves forward, cursor plus remaining request never grows, and no
address below the starting cursor or at/above the final cursor is
modified. -/
theorem copyInner_frame : ∀ (fuel : Nat) (s : Resp) (dst : Nat → Char) (acc toRead : Nat)
    (s' : Resp) (dst' : Nat → Char) (acc' toRead' : Nat),
    copyInner fuel s dst acc toRead = some (s', dst', acc', toRead') →
    acc ≤ acc' ∧ acc' + toRead' ≤ acc + toRead ∧
    ∀ i, i < acc ∨ acc' ≤ i → dst' i = dst i
  | 0, _, _, _, _, _, _, _, _, h => by cases h
  | Nat.succ fuel, s, dst, acc, toRead, s', dst', acc', toRead', h => by
    rw [copyInner] at h
    dsimp only at h
    split at h
    · split at h
      next s2 hsk =>
        cases h
        refine ⟨Nat.le_add_right _ _, by omega, ?_⟩
        intro i hi
        exact writeBytes_outside _ _ _ i (by rw [strncpyList_length]; omega)
      next s2 hsk =>
        split at h
        · split at h
          next s3 hsk2 =>
            cases h
            refine ⟨Nat.le_add_right _ _, by omega, ?_⟩
            intro i hi
            exact writeBytes_outside _ _ _ i (by rw [strncpyList_length]; omega)
          next s3 hsk2 =>
            cases h
            refine ⟨Nat.le_add_right _ _, by omega, ?_⟩
            intro i hi
            exact writeBytes_outside _ _ _ i (by rw [strncpyList_length]; omega)
        · have hrec := copyInner_frame fuel _ _ _ _ _ _ _ _ h
          refine ⟨by omega, by omega, ?_⟩
          intro i hi
          rw [hrec.2.2 i (by omega)]
          exact writeBytes_outside _ _ _ i (by rw [strncpyList_length]; omega)
    · cases h
      exact ⟨Nat.le_refl _, Nat.le_refl _, fun i _ => rfl⟩

/-- Frame property of the outer read loop. -/
theorem readLoop_frame : ∀ (fuel : Nat) (s : Resp) (dst : Nat → Char) (acc toRead : Nat)
    (s' : Resp) (dst' : Nat → Char) (acc' : Nat),
    readLoop fuel s dst acc toRead = some (s', dst', acc') →
    acc ≤ acc' ∧ acc' ≤ acc + toRead ∧
    ∀ i, i < acc ∨ acc' ≤ i → dst' i = dst i
  | 0, _, _, _, _, _, _, _, h => by cases h
  | Nat.succ fuel, s, dst, acc, toRead, s', dst', acc', h => by
    rw [readLoop] at h
    dsimp only at h
    split at h
    · cases h
      exact ⟨Nat.le_refl _, Nat.le_add_right _ _, fun i _ => rfl⟩
    · split at h
      next s2 hch =>
        cases h
        exact ⟨Nat.le_refl _, Nat.le_add_right _ _, fun i _ => rfl⟩
      next s2 hch =>
        split at h
        · cases h
        next s3 dst3 acc3 toRead3 hci =>
          have hin := copyInner_frame _ _ _ _ _ _ _ _ _ hci
          split at h
          · cases h
            exact ⟨hin.1, by omega, hin.2.2⟩
          · have hrec := readLoop_frame fuel _ _ _ _ _ _ _ h
            refine ⟨by omega, by omega, ?_⟩
            intro i hi
            rw [hrec.2.2 i (by omega)]
            exact hin.2.2 i (by omega)

end HC

namespace HC

/-- Claim C1: for a chunked-encoded response whose transport delivers
the byte sequence 4\r\nWiki\r\n5\r\npedia\r\n0\r\n\r\n as the body,
readToString returns exactly the string Wikipedia and the decoder ends
in the complete state (isComplete is true). -/
theorem claim_C1 :
    (readHeaders (mkS [chunkedHdrs ++ wikiBody])).2 = true ∧
    (readToString 32 c1s1).map (fun p => (p.2, p.1.isComplete))
      = some ("Wikipedia".toList, true) := by
  constructor
  · decide
  · decide

/-- Claim C3 (code bug): the copy loop of read advances all counters
by min(requested, buffered, remaining-in-unit), but because it copies
with strncpy the destination does not receive the buffered body bytes
when the body contains a NUL: for the 3-byte body A, NUL, B under
Content-Length: 3, read reports 3 bytes and readToString returns a
3-byte string, yet the byte after the NUL is a zero-filled NUL, not B.
This theorem evaluates the code at that failing input. -/
theorem claim_C3_bug :
    (read 32 c3s1 (fun _ => NUL) 3).map (fun p => (p.2.2, (List.range 3).map p.2.1))
      = some (3, ['A', NUL, NUL]) ∧
    (readToString 32 c3s1).map (fun p => p.2) = some ['A', NUL, NUL] ∧
    (['A', NUL, NUL] : List Char) ≠ ['A', NUL, 'B'] := by
  refine ⟨by decide, by decide, by decide⟩

/-- Claim C4 counterexample: header parsing is not invariant under
arbitrary split positions.  Splitting the block b4 at byte 36 puts the
boundary between the \r and the \n of the Content-Length line
terminator; the parser then concatenates the two lines and never sees
the blank-line terminator, so the parse never completes (respMeta
none), while the unsplit delivery parses to status 200 with
content-length 42. -/
theorem claim_C4_cex :
    respMeta (readHeaders (mkS [b4.take 36, b4.drop 36]))
      ≠ respMeta (readHeaders (mkS [b4])) ∧
    respMeta (readHeaders (mkS [b4.take 36, b4.drop 36])) = none ∧
    respMeta (readHeaders (mkS [b4])) = some ⟨200, 42, [], [], false, []⟩ := by
  refine ⟨by decide, by decide, by decide⟩

/-- Claim C4 as amended: for the header block b4, delivering it in one
fill and delivering it split across two fills produce identical parsed
response metadata for every split position that does not separate the
\r from the \n of a CRLF. -/
theorem claim_C4 :
    ∀ i < 40, ¬(b4.getD (i - 1) NUL = '\r' ∧ b4.getD i NUL = '\n') →
      respMeta (readHeaders (mkS [b4.take i, b4.drop i]))
        = respMeta (readHeaders (mkS [b4])) := by
  decide

/-- Witness for claim C4 at split position 5 (mid-token in the status
line). -/
theorem claim_C4_witness :
    respMeta (readHeaders (mkS [b4.take 5, b4.drop 5]))
      = respMeta (readHeaders (mkS [b4])) :=
  claim_C4 5 (by decide) (by decide)

/-- Claim C5 counterexample: a response whose headers carry no
content-length and no transfer-encoding is not marked complete by the
header parse; isComplete stays false (the claim says it becomes
true). -/
theorem claim_C5_cex :
    (readHeaders (mkS [b5])).2 = true ∧
    (readHeaders (mkS [b5])).1.isComplete = false ∧
    (readHeaders (mkS [b5])).1.contentLength = 0 ∧
    (readHeaders (mkS [b5])).1.isChunked = false := by
  refine ⟨by decide, by decide, by decide, by decide⟩

/-- Claim C5 as amended: after header parsing the response is marked
complete whenever a content-length: 0 header line was processed (the
ghost plines list records the processed lines of this leg), and in
the complete state a subsequent read returns 0 immediately, leaving
the state - hence the transport and its event trace - untouched and
writing only the NUL terminator at dst[0].  An absent content-length
header does not mark the response complete (see the
counterexample). -/
theorem claim_C5 :
    (∀ s0 : Resp, clZeroLine ∈ (readHeaders s0).1.plines →
       (readHeaders s0).1.isComplete = true) ∧
    (∀ (fuel : Nat) (s : Resp) (dst : Nat → Char) (n : Nat), s.isComplete = true →
       read fuel s dst n = some (s, writeBytes dst 0 [NUL], 0)) := by
  refine ⟨readHeaders_inv, ?_⟩
  intro fuel s dst n h
  unfold read
  rw [if_pos h]

/-- Witness for claim C5: the header block with content-length: 0
parses to a complete response and a subsequent read returns 0 with
the state untouched. -/
theorem claim_C5_witness :
    (readHeaders (mkS [b5z])).1.isComplete = true ∧
    read 5 (readHeaders (mkS [b5z])).1 (fun _ => NUL) 10
      = some ((readHeaders (mkS [b5z])).1, writeBytes (fun _ => NUL) 0 [NUL], 0) :=
  ⟨claim_C5.1 (mkS [b5z]) (by decide),
   claim_C5.2 5 (readHeaders (mkS [b5z])).1 (fun _ => NUL) 10
     (claim_C5.1 (mkS [b5z]) (by decide))⟩

/-- Claim C6 counterexample: the port-separator search does not stop
at the path boundary.  For http://h/a:9 the first colon after the
scheme lies inside the path, yet the splitter treats it as the port
separator: hostname becomes h/a and port 9, instead of hostname h
with default port 80. -/
theorem claim_C6_cex :
    splitUrl "http://h/a:9".toList = some (false, "h/a".toList, 9, "/a:9".toList) ∧
    splitUrl "http://h/a:9".toList ≠ some (false, ['h'], 80, "/a:9".toList) := by
  refine ⟨by decide, by decide⟩

/-- Claim C6 as amended: when the remainder of the URL after the
scheme contains no colon at all (no explicit port and no colon in the
path), the splitter uses the scheme default port (80 for http, 443
for https) and takes the hostname to end at the first slash.  The
original claim fails because the port-separator search does not stop
at the path boundary: a colon anywhere after the scheme is treated as
the port separator (see the counterexample). -/
theorem claim_C6 (host rest : List Char)
    (h1 : ':' ∉ host) (h2 : '/' ∉ host) (h3 : NUL ∉ host) (h4 : ':' ∉ rest) :
    splitUrl ("http://".toList ++ (host ++ '/' :: rest))
      = some (false, host, 80, '/' :: rest) ∧
    splitUrl ("https://".toList ++ (host ++ '/' :: rest))
      = some (true, host, 443, '/' :: rest) := by
  have hcolon : cstrchr (host ++ '/' :: rest) ':' = none := by
    rw [cstrchr_append host ('/' :: rest) ':' h1 h3, cstrchr,
        if_neg (by decide), if_neg (by decide), cstrchr_eq_none rest ':' h4]
    rfl
  have hslash : cstrchr (host ++ '/' :: rest) '/' = some host.length := by
    rw [cstrchr_append host ('/' :: rest) '/' h2 h3, cstrchr,
        if_neg (by decide), if_pos rfl]
    simp
  constructor
  · have hg : ("http://".toList ++ (host ++ '/' :: rest)).getD 4 NUL = ':' := by
      rw [List.getD_append _ _ _ 4 (by decide)]
      decide
    have hd : ("http://".toList ++ (host ++ '/' :: rest)).drop 7 = host ++ '/' :: rest :=
      List.drop_left' (by decide)
    unfold splitUrl
    rw [hg]
    simp only [show ((':' == 's') = false) from rfl, Bool.false_eq_true, if_false]
    rw [hd, hcolon, hslash]
    simp only [List.take_left, List.drop_left]
  · have hg : ("https://".toList ++ (host ++ '/' :: rest)).getD 4 NUL = 's' := by
      rw [List.getD_append _ _ _ 4 (by decide)]
      decide
    have hd : ("https://".toList ++ (host ++ '/' :: rest)).drop 8 = host ++ '/' :: rest :=
      List.drop_left' (by decide)
    unfold splitUrl
    rw [hg]
    simp only [show (('s' == 's') = true) from rfl, if_true]
    rw [hd, hcolon, hslash]
    simp only [List.take_left, List.drop_left]

/-- Witness for claim C6 at the concrete URL http://ex.com/p/q (and
its https variant). -/
theorem claim_C6_witness :
    splitUrl ("http://".toList ++ ("ex.com".toList ++ '/' :: "p/q".toList))
      = some (false, "ex.com".toList, 80, '/' :: "p/q".toList) ∧
    splitUrl ("https://".toList ++ ("ex.com".toList ++ '/' :: "p/q".toList))
      = some (true, "ex.com".toList, 443, '/' :: "p/q".toList) :=
  claim_C6 "ex.com".toList "p/q".toList (by decide) (by decide) (by decide) (by decide)

/-- Claim C7 counterexample: in streaming mode the buffer emptying
mid-chunk does not make read return the bytes gathered so far; the
code issues a further blocking transport read.  On c7cexS1 (5 of 10
chunk bytes buffered, isStreaming set) a read of up to 100 bytes
returns 10 bytes (HELLOWORLD) and the ghost trace shows an additional
sockRead event issued after the buffer emptied mid-chunk. -/
theorem claim_C7_cex :
    c7cexS1.isStreaming = true ∧
    (read 20 c7cexS1 (fun _ => NUL) 100).map
        (fun p => (p.2.2, cstrOfFun p.2.1 101, p.1.tr))
      = some (10, "HELLOWORLD".toList, [Ev.sockRead 55, Ev.sockRead 12]) ∧
    c7cexS1.tr = [Ev.sockRead 55] := by
  refine ⟨by decide, by decide, by decide⟩

/-- Claim C7 as amended: in streaming mode a short read without any
further transport read is guaranteed when the buffer empties at a
chunk boundary (the chunk-trailing CRLF skip is suppressed from
refilling); mid-chunk exhaustion instead triggers a refilling
transport read.  On c7okS1 (exactly one whole 5-byte chunk buffered,
more data pending in the transport) a read of up to 100 bytes returns
the 5 gathered bytes, the trace gains no transport-read event, and
the pending fill is left untouched. -/
theorem claim_C7 :
    c7okS1.isStreaming = true ∧
    (read 20 c7okS1 (fun _ => NUL) 100).map (fun p => (p.2.2, cstrOfFun p.2.1 101))
      = some (5, "HELLO".toList) ∧
    (read 20 c7okS1 (fun _ => NUL) 100).map (fun p => p.1.tr)
      = some [Ev.sockRead 57] ∧
    c7okS1.tr = [Ev.sockRead 57] ∧
    (read 20 c7okS1 (fun _ => NUL) 100).map (fun p => (p.1.isComplete, p.1.socket.fills))
      = some (false, ["0\r\n\r\n".toList]) := by
  refine ⟨by decide, by decide, by decide, by decide, by decide⟩

/-- Claim C8 (code bug): the buffer invariant cursor + remaining ≤
BUF_SIZE is violated in a reachable state.  After parsing chunked
headers (empty buffer) a skip(2) - the chunk-trailing-CRLF skip -
with a single-byte transport fill runs bufRemaining -= skip as size_t
arithmetic: bufRemaining becomes 2^64 - 1 and the cursor is placed at
offset 2, so cursor + remaining vastly exceeds BUF_SIZE.  This
theorem evaluates the code at that failing input. -/
theorem claim_C8_bug :
    c8s2.bufPos = 2 ∧ c8s2.bufRemaining = 2 ^ 64 - 1 ∧
    BUF_SIZE < c8s2.bufPos + c8s2.bufRemaining := by
  refine ⟨by decide, by decide, by decide⟩

/-- Claim C9: if the transport accepts fewer bytes than the full
serialized request, the leg fails fatally: executeImpl returns the
null response, and the trace gained on this leg is exactly open,
short write, close - no socket read ever happens, so neither header
parsing nor a body read is attempted. -/
theorem claim_C9 (world : List Char → Nat → ModelSocket) (req : HTTPRequest)
    (url : List Char) (s : Resp) (https : Bool) (host : List Char) (port : Nat)
    (path : List Char)
    (hsp : splitUrl url = some (https, host, port, path))
    (hw : (world host port).writeAccept (serializeRequest req host port path).length
            ≠ (serializeRequest req host port path).length) :
    ∀ fuel : Nat,
      executeImpl (fuel + 1) world req url s
        = ExecOut.nullResp (s.tr ++
            [Ev.opened host port https,
             Ev.wrote ((world host port).writeAccept (serializeRequest req host port path).length)
               (serializeRequest req host port path).length,
             Ev.closed]) := by
  intro fuel
  simp only [executeImpl, runLeg, hsp]
  rw [if_neg hw]
  simp [closeResp, List.append_assoc]

/-- Witness for claim C9: a world accepting zero bytes on write makes
the call return null after exactly open, write, close. -/
theorem claim_C9_witness :
    executeImpl 1 c9W c2Req c2url initResp
      = ExecOut.nullResp (initResp.tr ++
          [Ev.opened "a".toList 80 false,
           Ev.wrote ((c9W "a".toList 80).writeAccept
               (serializeRequest c2Req "a".toList 80 "/x".toList).length)
             (serializeRequest c2Req "a".toList 80 "/x".toList).length,
           Ev.closed]) :=
  claim_C9 c9W c2Req c2url initResp false "a".toList 80 "/x".toList (by decide) (by decide) 0

/-- Claim C2: for a request whose first-leg response carries a
Location header (isRedirect), execution with maxRedirects = 0 returns
that redirect response unfollowed; with maxRedirects = 1 it follows
exactly one redirect and returns the second leg's response; and with
any negative maxRedirects the redirect is followed (the call recurses
on the location URL).  In every followed case the redirect counter of
the state entering the new leg is incremented and the close event is
appended to the trace before the new leg begins. -/
theorem claim_C2 (world : List Char → Nat → ModelSocket) (req : HTTPRequest)
    (url : List Char) (s s1 : Resp)
    (h1 : runLeg world req url s = ExecOut.ok s1)
    (hr : s1.isRedirect = true) (hc : s1.redirectCount = 0) :
    (∀ fuel : Nat,
       executeImpl (fuel + 1) world { req with maxRedirects := 0 } url s
         = ExecOut.ok s1) ∧
    (({ s1 with redirectCount := s1.redirectCount + 1 } : Resp).redirectCount
       = s1.redirectCount + 1 ∧
     (closeResp { s1 with redirectCount := s1.redirectCount + 1 }).tr
       = s1.tr ++ [Ev.closed]) ∧
    (∀ (fuel : Nat) (s2 : Resp),
       runLeg world req s1.location
           (closeResp { s1 with redirectCount := s1.redirectCount + 1 })
         = ExecOut.ok s2 →
       executeImpl (fuel + 2) world { req with maxRedirects := 1 } url s
         = ExecOut.ok s2) ∧
    (∀ m : Int, m < 0 → ∀ fuel : Nat,
       executeImpl (fuel + 1) world { req with maxRedirects := m } url s
         = executeImpl fuel world { req with maxRedirects := m } s1.location
             (closeResp { s1 with redirectCount := s1.redirectCount + 1 })) := by
  refine ⟨?_, ⟨rfl, rfl⟩, ?_, ?_⟩
  · intro fuel
    simp only [executeImpl, runLeg_withMax, h1]
    rw [if_neg]
    rintro ⟨-, h | h⟩ <;> omega
  · intro fuel s2 h2
    have hrc2 : s2.redirectCount = s1.redirectCount + 1 :=
      runLeg_redirectCount world req s1.location _ s2 h2
    simp only [executeImpl, runLeg_withMax, h1]
    rw [if_pos ⟨hr, Or.inr (by omega)⟩]
    simp only [executeImpl, runLeg_withMax, h2]
    rw [if_neg]
    rintro ⟨-, h | h⟩ <;> omega
  · intro m hm fuel
    simp only [executeImpl, runLeg_withMax, h1]
    rw [if_pos ⟨hr, Or.inl hm⟩]

/-- Witness for claim C2 on the concrete two-host world: maxRedirects
0 stops at the 302, maxRedirects 1 returns the second leg's 200, and
a negative limit recurses on the location URL from the
close-appended, counter-incremented state. -/
theorem claim_C2_witness :
    executeImpl 1 c2W { c2Req with maxRedirects := 0 } c2url initResp = ExecOut.ok c2s1 ∧
    executeImpl 2 c2W { c2Req with maxRedirects := 1 } c2url initResp = ExecOut.ok c2s2 ∧
    executeImpl 1 c2W { c2Req with maxRedirects := -1 } c2url initResp
      = executeImpl 0 c2W { c2Req with maxRedirects := -1 } c2s1.location
          (closeResp { c2s1 with redirectCount := c2s1.redirectCount + 1 }) := by
  have h := claim_C2 c2W c2Req c2url initResp c2s1 rfl rfl rfl
  exact ⟨h.1 0, h.2.2.1 0 c2s2 rfl, h.2.2.2 (-1) (by decide) 0⟩

/-- Claim C10: every returning call of read(dst, maxBytes) writes the
NUL terminator at dst[bytesRead] - including dst[0] when it returns 0
because the response is already complete - with bytesRead ≤ maxBytes
(so a destination of maxBytes + 1 bytes suffices), and no address of
dst beyond index bytesRead (other than that terminator) is
modified. -/
theorem claim_C10 (fuel : Nat) (s : Resp) (dst : Nat → Char) (n : Nat)
    (s' : Resp) (dst' : Nat → Char) (r : Nat)
    (h : read fuel s dst n = some (s', dst', r)) :
    r ≤ n ∧ dst' r = NUL ∧ ∀ i, r < i → dst' i = dst i := by
  unfold read at h
  split at h
  · cases h
    refine ⟨Nat.zero_le _, writeBytes_nul dst 0, ?_⟩
    intro i hi
    exact writeBytes_outside _ _ _ i (by simp; omega)
  · split at h
    · cases h
    next s1 dst1 acc hrl =>
      have hf := readLoop_frame _ _ _ _ _ _ _ _ hrl
      cases h
      refine ⟨by omega, writeBytes_nul dst1 r, ?_⟩
      intro i hi
      rw [writeBytes_outside _ _ _ i (by simp; omega)]
      exact hf.2.2 i (by omega)

/-- Witness for claim C10 on the concrete content-length-3 read: the
returned count is within bound, the terminator is at dst[count], and
addresses beyond it keep the initial destination content. -/
theorem claim_C10_witness :
    c10res.2.2 ≤ 3 ∧ c10res.2.1 c10res.2.2 = NUL ∧
    ∀ i, c10res.2.2 < i → c10res.2.1 i = (fun _ => NUL) i :=
  claim_C10 32 c3s1 (fun _ => NUL) 3 c10res.1 c10res.2.1 c10res.2.2 rfl

end HC
